import Mathlib

/-!
Verification of the localRAGstudio frontend (frontend/src/api.js and
frontend/src/App.jsx) against its natural-language specification.

The JavaScript client code is shallowly embedded: each API helper becomes a
pure function from the server `Response` it awaits to the value it returns or
the error it throws; `fetch` bodies are JSON values; strings manipulated
character-by-character (SSE buffers, the WSL path helper) are `List Char`.
Backend components that are not part of the repository sources (the Python
job orchestrator, knowledge-base store, vector index and retrieval engine)
are modelled from the spec where a claim needs them; each such definition is
marked `Modelled from the spec:`.
-/

/-- JSON values, the result of `JSON.parse` on a response body. -/
inductive Json where
  | null
  | bool (b : Bool)
  | num (n : Int)
  | str (s : String)
  | arr (elems : List Json)
  | obj (fields : List (String × Json))

/-- Property lookup on a parsed JSON object (`obj.key` in JS); `none` models
`undefined`. JSON.parse keeps one value per key, so first-match is adequate. -/
def lookupField : List (String × Json) → String → Option Json
  | [], _ => none
  | (k', v) :: rest, k => if k' = k then some v else lookupField rest k

/-- `j.key` for an arbitrary JSON value: only objects have properties. -/
def jsonLookup : Json → String → Option Json
  | .obj fs, k => lookupField fs k
  | _, _ => none

/-- JavaScript truthiness of a JSON value (`null`, `false`, `0` and `""` are
falsy; arrays and objects are truthy). -/
def jsTruthy : Json → Bool
  | .null => false
  | .bool b => b
  | .num n => n != 0
  | .str s => s != ""
  | .arr _ => true
  | .obj _ => true

mutual

/-- JavaScript string coercion of a JSON value (`String(v)`), as used when a
value is placed in a template literal or an `Error` message; arrays join
their elements with commas, objects display as `[object Object]`. -/
def jsToString : Json → String
  | .null => "null"
  | .bool true => "true"
  | .bool false => "false"
  | .num n => toString n
  | .str s => s
  | .arr xs => String.intercalate "," (jsToStringList xs)
  | .obj _ => "[object Object]"

/-- Element-wise coercion of a JSON array's members. -/
def jsToStringList : List Json → List String
  | [] => []
  | x :: xs => jsToString x :: jsToStringList xs

end

/-- Template-literal display of a property access that may be `undefined`. -/
def jsDisplay : Option Json → String
  | none => "undefined"
  | some v => jsToString v

/-- JavaScript `a || b` for a possibly-missing JSON value coerced to a string:
yields the coerced value when truthy, otherwise the fallback. -/
def orFallback (v : Option Json) (dflt : String) : String :=
  match v with
  | some x => if jsTruthy x then jsToString x else dflt
  | none => dflt

/-- `${v || 0}`: display of a possibly-missing numeric field with 0 fallback. -/
def orZero (v : Option Json) : String :=
  match v with
  | some x => if jsTruthy x then jsToString x else "0"
  | none => "0"

/-- A `fetch` response as the client observes it: the `ok` flag and the result
of `JSON.parse` on the body (`none` when the body is not valid JSON, in which
case `res.json()` rejects). -/
structure Response where
  ok : Bool
  body : Option Json

/-- `res.json().catch(() => ({}))`: the parsed body, or `{}` on parse failure. -/
def jsonOrEmpty (r : Response) : Json := r.body.getD (.obj [])

/-- `err.detail || dflt` applied to the caught error body, the message given to
`new Error(...)` on a non-ok response. -/
def errDetail (r : Response) (dflt : String) : String :=
  orFallback (jsonLookup (jsonOrEmpty r) "detail") dflt

/-- Embedding of `getJob(jobId)` (api.js): returns the parsed body when the
response is ok, otherwise throws `new Error(err.detail || "Failed to fetch
job")`. An ok response whose body is not JSON makes `res.json()` reject, which
propagates (modelled as an error carrying the parse failure). -/
def getJob (r : Response) : Except String Json :=
  if r.ok then
    match r.body with
    | some j => .ok j
    | none => .error "SyntaxError: unexpected response body"
  else
    .error (errDetail r "Failed to fetch job")

/-- Embedding of `startKBJob(payload)` (api.js): throws
`new Error(err.detail || "Failed to start KB job")` when the response is not
ok, otherwise resolves with the parsed body (which carries `job_id`). -/
def startKBJob (r : Response) : Except String Json :=
  if r.ok then
    match r.body with
    | some j => .ok j
    | none => .error "SyntaxError: unexpected response body"
  else
    .error (errDetail r "Failed to start KB job")

/-- Embedding of `startEmbeddingJob(payload)` (api.js), identical to
`startKBJob` except for the fallback message. -/
def startEmbeddingJob (r : Response) : Except String Json :=
  if r.ok then
    match r.body with
    | some j => .ok j
    | none => .error "SyntaxError: unexpected response body"
  else
    .error (errDetail r "Failed to start embedding job")

/-- Embedding of `createKBUpload({...})` (api.js): throws
`new Error(err.detail || "Upload failed")` when not ok, otherwise resolves
with the parsed body — the final build result, not a job handle. -/
def createKBUpload (r : Response) : Except String Json :=
  if r.ok then
    match r.body with
    | some j => .ok j
    | none => .error "SyntaxError: unexpected response body"
  else
    .error (errDetail r "Upload failed")

/-- Embedding of `ingestKB(name, sourcePath)` (api.js): resolves with
`res.json()` unconditionally — the status flag is never consulted and no job
is involved. -/
def ingestKB (r : Response) : Except String Json :=
  match r.body with
  | some j => .ok j
  | none => .error "SyntaxError: unexpected response body"

/-- Embedding of `rebuildKB(name, sourcePath)` (api.js): same shape as
`ingestKB` — a single awaited POST whose parsed body is the result. -/
def rebuildKB (r : Response) : Except String Json :=
  match r.body with
  | some j => .ok j
  | none => .error "SyntaxError: unexpected response body"

/-- Embedding of `renameKB(name, newName)` (api.js): resolves with
`res.json()` unconditionally. -/
def renameKB (r : Response) : Except String Json :=
  match r.body with
  | some j => .ok j
  | none => .error "SyntaxError: unexpected response body"

/-- Embedding of `deleteKB(name)` (api.js): the DELETE response is awaited and
discarded; the call resolves with `undefined` whatever the server replied. -/
def deleteKB (_ : Response) : Except String Unit := .ok ()

/-- `data.status === "finished"`-style strict comparison on a parsed snapshot:
true exactly when the `status` property is the given string. -/
def statusIs (d : Json) (s : String) : Bool :=
  match jsonLookup d "status" with
  | some (.str t) => t == s
  | _ => false

/-- The terminal-snapshot test used by `streamJob`'s `onmessage` handler. -/
def isTerminalSnap (d : Json) : Bool :=
  statusIs d "finished" || statusIs d "failed"

/-- Embedding of `streamJob(jobId, onUpdate)` (api.js) together with the
EventSource delivery discipline: incoming message events are handled in order
while the source is open; an event with empty `data` is ignored
(`if (!event.data) return`), otherwise the parsed snapshot is passed to
`onUpdate`, and the source is closed as soon as the snapshot's status is
"finished" or "failed", so nothing after it is handled. The result is the
list of snapshots delivered to `onUpdate`. -/
def runStreamJob : List (Option Json) → List Json
  | [] => []
  | none :: es => runStreamJob es
  | some d :: es => d :: (if isTerminalSnap d then [] else runStreamJob es)

/-- Modelled from the spec: the Job Orchestrator backend is not in the
repository sources. Per §4.6, `subscribe(jobId)` on a job that already
reached a terminal state replays the last snapshot to the late subscriber
and then the sequence ends, so the event stream such a subscriber's
EventSource observes is exactly one message carrying that snapshot. -/
def replayLastEvents (snap : Json) : List (Option Json) := [some snap]

/-- Modelled from the spec: the backend job store (not in the repository
sources) answers a poll for an unknown or expired job id with a non-ok
NotFound response carrying a detail message (§4.6, §7). -/
def unknownJobResponse : Response :=
  { ok := false, body := some (.obj [("detail", .str "Job not found")]) }

/-- JS `String.prototype.split` with separator `"\n\n"`, specialised from the
`buffer.split("\n\n")` call in `sendChat` (api.js): leftmost, non-overlapping
matches of the two-character separator cut the string; a trailing fragment
(possibly empty) is always returned as the last part. -/
def splitEvents : List Char → List (List Char)
  | [] => [[]]
  | [c] => [[c]]
  | c₁ :: c₂ :: rest =>
    if c₁ = '\n' ∧ c₂ = '\n' then
      [] :: splitEvents rest
    else
      (c₁ :: (splitEvents (c₂ :: rest)).headI) :: (splitEvents (c₂ :: rest)).tail

/-- `events.pop() || ""`: the last element of the split (split output is never
empty, so the `|| ""` only renames an empty last part). -/
def lastPart : List (List Char) → List Char
  | [] => []
  | [p] => p
  | _ :: p :: ps => lastPart (p :: ps)

/-- The JavaScript whitespace class used by both `String.prototype.trim` and
the regex class `\s` (WhiteSpace plus LineTerminator code points). -/
def isJsWs (c : Char) : Bool :=
  let n := c.toNat
  n = 9 || n = 10 || n = 11 || n = 12 || n = 13 || n = 32 ||
  n = 160 || n = 5760 || (8192 <= n && n <= 8202) || n = 8232 || n = 8233 ||
  n = 8239 || n = 8287 || n = 12288 || n = 65279

/-- JS `s.trim()` on a character list. -/
def jsTrim (s : List Char) : List Char :=
  ((s.dropWhile isJsWs).reverse.dropWhile isJsWs).reverse

/-- The characters of the SSE field tag `"data:"`. -/
def dataTag : List Char := ['d', 'a', 't', 'a', ':']

/-- The per-event body of `sendChat`'s loop (api.js): trim the event, skip it
unless the trimmed text starts with `"data:"`, strip the leading
`data:`-plus-whitespace (`replace(/^data:\s*/, "")`), and skip empty
payloads; a surviving payload is handed to `JSON.parse`/`onToken`. -/
def extractEvent (event : List Char) : Option (List Char) :=
  let line := jsTrim event
  if dataTag.isPrefixOf line then
    let payload := (line.drop 5).dropWhile isJsWs
    if payload = [] then none else some payload
  else
    none

/-- Embedding of `sendChat`'s read loop (api.js): each decoded chunk is
appended to the carry buffer, the buffer is split on blank lines, the final
(possibly incomplete) part becomes the new carry, and every completed event
goes through `extractEvent`. The result is the list of payloads passed to
`onToken`, in delivery order; the carry left when the stream ends is
discarded. -/
def runSSE (buffer : List Char) : List (List Char) → List (List Char)
  | [] => []
  | c :: cs =>
    let parts := splitEvents (buffer ++ c)
    parts.dropLast.filterMap extractEvent ++ runSSE (lastPart parts) cs

/-- Outcome trace of one run of a `handleCreateKB` branch (App.jsx): the final
`kbStatus` text, the stored `kbJobId`, and the job ids passed to `getJob` and
`streamJob` during the run. -/
structure KBFlowOut where
  kbStatus : String
  kbJobId : Option String
  polled : List String
  streamed : List String
deriving DecidableEq

/-- The upload branch's success message (App.jsx line 373):
`Processed ${result.processed_files} files, ${result.chunks} chunks`. -/
def processedMsg (result : Json) : String :=
  "Processed " ++ jsDisplay (jsonLookup result "processed_files") ++
    " files, " ++ jsDisplay (jsonLookup result "chunks") ++ " chunks"

/-- The snapshot success message (App.jsx lines 388-390):
`Processed ${snapshot.processed_files || 0} files, ${snapshot.chunks || 0}
chunks`. -/
def processedMsgOrZero (snap : Json) : String :=
  "Processed " ++ orZero (jsonLookup snap "processed_files") ++
    " files, " ++ orZero (jsonLookup snap "chunks") ++ " chunks"

/-- Embedding of the folder-upload branch of `handleCreateKB` (App.jsx lines
364-375): `createKBUpload` is awaited, its parsed response is read directly
as the final result (`result.processed_files`, `result.chunks`), and no job
id is stored, polled or streamed. A thrown error lands in the outer catch
(`err.message || "Failed to ingest"`). -/
def uploadBranch (r : Response) : KBFlowOut :=
  match createKBUpload r with
  | .error m =>
      { kbStatus := if m = "" then "Failed to ingest" else m
        kbJobId := none
        polled := []
        streamed := [] }
  | .ok result =>
      { kbStatus := processedMsg result
        kbJobId := none
        polled := []
        streamed := [] }

/-- Embedding of the source-path branch of `handleCreateKB` (App.jsx lines
376-413): `startKBJob` is awaited; on success the returned `job.job_id` is
stored and immediately polled with `getJob`; a terminal first snapshot ends
the run, otherwise `streamJob` is attached to the same job id (also when the
poll itself threw). `rStart` is the response to the job-start POST and
`rSnap` the response to the first poll. -/
def pathBranch (rStart rSnap : Response) : KBFlowOut :=
  match startKBJob rStart with
  | .error m =>
      { kbStatus := if m = "" then "Failed to ingest" else m
        kbJobId := none
        polled := []
        streamed := [] }
  | .ok job =>
      let jid := jsDisplay (jsonLookup job "job_id")
      match getJob rSnap with
      | .error m =>
          { kbStatus := if m = "" then "Failed to fetch job status" else m
            kbJobId := some jid
            polled := [jid]
            streamed := [jid] }
      | .ok snap =>
          if statusIs snap "failed" then
            { kbStatus := orFallback (jsonLookup snap "error") "Ingest failed"
              kbJobId := some jid
              polled := [jid]
              streamed := [] }
          else if statusIs snap "finished" then
            { kbStatus := processedMsgOrZero snap
              kbJobId := some jid
              polled := [jid]
              streamed := [] }
          else
            { kbStatus := "Starting..."
              kbJobId := some jid
              polled := [jid]
              streamed := [jid] }

/-- Embedding of the Knowledge Bases page "Add docs" handler (App.jsx lines
753-759): `ingestKB` is awaited and `refreshKBs` called; no job id is ever
read, polled or streamed. -/
def addDocsFlow (_ : Response) : KBFlowOut :=
  { kbStatus := "", kbJobId := none, polled := [], streamed := [] }

/-- Embedding of the "Rebuild" handler (App.jsx lines 777-783): `rebuildKB`
is awaited and `refreshKBs` called; no job interaction. -/
def rebuildFlow (_ : Response) : KBFlowOut :=
  { kbStatus := "", kbJobId := none, polled := [], streamed := [] }

/-- The double-quote character. -/
def dq : Char := Char.ofNat 34

/-- The single-quote character. -/
def squote : Char := Char.ofNat 39

/-- `replace(/^["']|["']$/g, "")` (App.jsx line 838): one leading and one
trailing quote character are removed when present. -/
def stripQuotes (s : List Char) : List Char :=
  let s1 := if s.head? = some dq ∨ s.head? = some squote then s.tail else s
  if s1.getLast? = some dq ∨ s1.getLast? = some squote then s1.dropLast else s1

/-- ASCII letter test, the regex class `[A-Za-z]`. -/
def isAsciiLetter (c : Char) : Bool :=
  (('A' ≤ c && c ≤ 'Z') || ('a' ≤ c && c ≤ 'z'))

/-- JS regex line terminators, the code points `.` does not match. -/
def isLineTerm (c : Char) : Bool :=
  c = '\n' || c = '\r' || c.toNat = 8232 || c.toNat = 8233

/-- `trimmed.match(/^([A-Za-z]):[\\/](.*)$/)` (App.jsx line 839): a drive
letter, a colon, one slash or backslash, then a remainder containing no line
terminator (`.` does not cross them and the regex has no `m`/`s` flags);
yields the two capture groups on success. -/
def winMatch (s : List Char) : Option (Char × List Char) :=
  match s with
  | d :: c :: sep :: rest =>
      if isAsciiLetter d && (c = ':') && (sep = '\\' || sep = '/') &&
          rest.all (fun x => !isLineTerm x) then
        some (d, rest)
      else
        none
  | _ => none

/-- `match[2].replace(/[\\]+/g, "/")` (App.jsx line 845): every maximal run
of backslashes becomes a single forward slash. -/
def collapseBS : List Char → List Char
  | [] => []
  | c :: rest =>
    if c = '\\' then
      if rest.head? = some '\\' then collapseBS rest else '/' :: collapseBS rest
    else
      c :: collapseBS rest

/-- The create-KB form state the WSL helper touches. -/
structure KbFormState where
  sourcePath : List Char
  kbStatus : List Char
deriving DecidableEq

/-- The converted path `/mnt/${drive}/${rest}` (App.jsx line 846). -/
def wslPathOf (d : Char) (rest : List Char) : List Char :=
  "/mnt/".toList ++ [d.toLower] ++ ['/'] ++ collapseBS rest

/-- Embedding of the WSL path helper button's onClick (App.jsx lines
830-852): a cancelled or empty prompt does nothing; otherwise the input is
trimmed, stripped of surrounding quotes, and matched against the Windows
path regex; on failure only the status is set to "Invalid Windows path.";
on success the lowercased drive and slash-collapsed remainder form the new
`source_path`, and the status reports it. -/
def wslHelper (input : Option (List Char)) (st : KbFormState) : KbFormState :=
  match input with
  | none => st
  | some s =>
    if s = [] then st
    else
      let trimmed := stripQuotes (jsTrim s)
      match winMatch trimmed with
      | none => { st with kbStatus := "Invalid Windows path.".toList }
      | some (d, rest) =>
          let wsl := wslPathOf d rest
          { st with
              sourcePath := wsl
              kbStatus := "WSL path: ".toList ++ wsl }

/-- The two chat providers. -/
inductive Provider where
  | gemini
  | codex
deriving DecidableEq

/-- A chat message as held in `messagesByProvider`. -/
structure ChatMsg where
  role : List Char
  content : List Char
deriving DecidableEq

/-- The chat UI state touched by `handleSendMessage` (App.jsx). -/
structure ChatUiState where
  chatInput : List Char
  dualGemini : List Char
  dualCodex : List Char
  dualMode : Bool
  provider : Provider
  msgsGemini : List ChatMsg
  msgsCodex : List ChatMsg
  statusGemini : List Char
  statusCodex : List Char
deriving DecidableEq

/-- A network send issued by `handleSendMessage` (one `sendChat` call). -/
structure ChatRequest where
  provider : Provider
  message : List Char
deriving DecidableEq

/-- `dualInputs[overrideProvider]`. -/
def dualInputOf (st : ChatUiState) : Provider → List Char
  | .gemini => st.dualGemini
  | .codex => st.dualCodex

/-- The raw composer text `handleSendMessage` reads before trimming. -/
def rawInput (ov : Option Provider) (st : ChatUiState) : List Char :=
  match ov with
  | some p => dualInputOf st p
  | none => st.chatInput

/-- The input-clearing step that runs only after the non-empty check. -/
def clearInput (ov : Option Provider) (st : ChatUiState) : ChatUiState :=
  match ov with
  | some .gemini => { st with dualGemini := [] }
  | some .codex => { st with dualCodex := [] }
  | none => { st with chatInput := [] }

/-- Per-provider synchronous effects of a send: status set to "Thinking..."
and the user message plus empty assistant placeholder appended. -/
def applyProvider (prompt : List Char) (st : ChatUiState) (p : Provider) :
    ChatUiState :=
  match p with
  | .gemini =>
      { st with
          statusGemini := "Thinking...".toList
          msgsGemini := st.msgsGemini ++
            [⟨"user".toList, prompt⟩, ⟨"assistant".toList, []⟩] }
  | .codex =>
      { st with
          statusCodex := "Thinking...".toList
          msgsCodex := st.msgsCodex ++
            [⟨"user".toList, prompt⟩, ⟨"assistant".toList, []⟩] }

/-- Embedding of `handleSendMessage(event, overrideProvider)` (App.jsx lines
252-351) up to the issuing of the per-provider `sendChat` calls: the trimmed
prompt is computed first and an empty prompt returns before any state is
touched; otherwise the source input is cleared, the provider set is chosen
(override, dual, or current), and for each provider the status/message
updates are applied and a request is issued. -/
def handleSendMessage (ov : Option Provider) (st : ChatUiState) :
    ChatUiState × List ChatRequest :=
  let prompt := jsTrim (rawInput ov st)
  if prompt = [] then (st, [])
  else
    let st1 := clearInput ov st
    let providers :=
      match ov with
      | some p => [p]
      | none => if st.dualMode then [Provider.gemini, Provider.codex] else [st.provider]
    (providers.foldl (applyProvider prompt) st1,
      providers.map (fun p => ⟨p, prompt⟩))

/-- Knowledge-base catalog metadata (spec §3). -/
structure KBMeta where
  name : String
  chunkCount : Nat
deriving DecidableEq

/-- Modelled from the spec: the Knowledge Base Manager's `delete(name)` is
not in the repository sources. Per §4.4 it removes every entry of that name
and is a no-op when none exists. -/
def kbDelete (kbs : List KBMeta) (n : String) : List KBMeta :=
  kbs.filter (fun kb => kb.name != n)

/-- Backend error taxonomy members needed by the claims (spec §7). -/
inductive KbError where
  | IncompatibleModel
  | NotFound
deriving DecidableEq

/-- A per-KB vector index: the embedding dimension fixed by the KB's model
and the stored (chunk id, vector) records (spec §4.3). -/
structure VectorIndex where
  dim : Nat
  chunks : List (Nat × List ℚ)

/-- Modelled from the spec: the Vector Index `add` is not in the repository
sources. Per §4.2/§4.3, every incoming vector's dimension is validated
against the index dimension before any write; a mismatch is an
`IncompatibleModel` error and nothing is written. -/
def viAdd (ix : VectorIndex) (batch : List (Nat × List ℚ)) :
    Except KbError VectorIndex :=
  if batch.all (fun c => c.2.length == ix.dim) then
    .ok { ix with chunks := ix.chunks ++ batch }
  else
    .error .IncompatibleModel

/-- Name lookup in the store of per-KB indexes. -/
def lookupIndex : List (String × VectorIndex) → String → Option VectorIndex
  | [], _ => none
  | (n, ix) :: rest, k => if n = k then some ix else lookupIndex rest k

/-- Replace the index stored under a name. -/
def updateIndex (s : List (String × VectorIndex)) (k : String)
    (ix : VectorIndex) : List (String × VectorIndex) :=
  s.map (fun e => if e.1 = k then (e.1, ix) else e)

/-- Modelled from the spec: adding a batch to a named KB in the backend
store. On an `IncompatibleModel` rejection the store is returned unchanged
(the KB is never truncated, padded or partially written). -/
def storeAdd (s : List (String × VectorIndex)) (kb : String)
    (batch : List (Nat × List ℚ)) :
    List (String × VectorIndex) × Option KbError :=
  match lookupIndex s kb with
  | none => (s, some .NotFound)
  | some ix =>
    match viAdd ix batch with
    | .ok ix2 => (updateIndex s kb ix2, none)
    | .error e => (s, some e)

/-- A retrieval hit (spec §3 RetrievalResult; only the merge-relevant
fields). -/
structure RetrievalResult where
  kbName : String
  chunkId : Nat
  score : ℚ

/-- Modelled from the spec: the Retrieval Engine's merge order (§4.5) —
higher score first, ties broken by KB name then chunk id. -/
def resultBefore (a b : RetrievalResult) : Prop :=
  b.score < a.score ∨
    (a.score = b.score ∧
      (a.kbName < b.kbName ∨ (a.kbName = b.kbName ∧ a.chunkId ≤ b.chunkId)))

instance : DecidableRel resultBefore := fun a b => by
  unfold resultBefore; infer_instance

instance : IsTotal RetrievalResult resultBefore where
  total a b := by
    unfold resultBefore
    rcases lt_trichotomy a.score b.score with hs | hs | hs
    · exact Or.inr (Or.inl hs)
    · rcases lt_trichotomy a.kbName b.kbName with hn | hn | hn
      · exact Or.inl (Or.inr ⟨hs, Or.inl hn⟩)
      · rcases le_total a.chunkId b.chunkId with hi | hi
        · exact Or.inl (Or.inr ⟨hs, Or.inr ⟨hn, hi⟩⟩)
        · exact Or.inr (Or.inr ⟨hs.symm, Or.inr ⟨hn.symm, hi⟩⟩)
      · exact Or.inr (Or.inr ⟨hs.symm, Or.inl hn⟩)
    · exact Or.inl (Or.inl hs)

instance : IsTrans RetrievalResult resultBefore where
  trans a b c hab hbc := by
    unfold resultBefore at hab hbc ⊢
    rcases hab with hs1 | ⟨hs1, hn1⟩
    · rcases hbc with hs2 | ⟨hs2, _⟩
      · exact Or.inl (lt_trans hs2 hs1)
      · exact Or.inl (hs2 ▸ hs1)
    · rcases hbc with hs2 | ⟨hs2, hn2⟩
      · exact Or.inl (hs1 ▸ hs2)
      · refine Or.inr ⟨hs1.trans hs2, ?_⟩
        rcases hn1 with hn1 | ⟨hn1, hi1⟩
        · rcases hn2 with hn2 | ⟨hn2, _⟩
          · exact Or.inl (lt_trans hn1 hn2)
          · exact Or.inl (hn2 ▸ hn1)
        · rcases hn2 with hn2 | ⟨hn2, hi2⟩
          · exact Or.inl (hn1 ▸ hn2)
          · exact Or.inr ⟨hn1.trans hn2, hi1.trans hi2⟩

/-- Modelled from the spec: the Retrieval Engine merge (§4.5) over the
per-KB search outputs — each KB contributes its scored (chunk id, score)
candidates, all lists are merged into one order by `resultBefore`, and the
merged list is truncated to the single overall `topK`. -/
def retrieve (perKB : List (String × List (Nat × ℚ))) (topK : Nat) :
    List RetrievalResult :=
  let all :=
    (perKB.map (fun kb => kb.2.map (fun c => RetrievalResult.mk kb.1 c.1 c.2))).flatten
  (List.insertionSort resultBefore all).take topK

/-- The split of any string is non-empty (JS `split` always yields at least
one part). -/
theorem splitEvents_ne_nil (s : List Char) : splitEvents s ≠ [] := by
  induction s using splitEvents.induct with
  | case1 => simp [splitEvents]
  | case2 c => simp [splitEvents]
  | case3 c₁ c₂ rest h ih => simp [splitEvents, h]
  | case4 c₁ c₂ rest h ih => simp [splitEvents, h]

theorem lastPart_cons_of_ne_nil (a : List Char) (L : List (List Char))
    (h : L ≠ []) : lastPart (a :: L) = lastPart L := by
  cases L with
  | nil => exact absurd rfl h
  | cons p ps => rfl

theorem splitEvents_cons_cons_sep (rest : List Char) :
    splitEvents ('\n' :: '\n' :: rest) = [] :: splitEvents rest := by
  simp [splitEvents]

theorem splitEvents_cons_cons_nosep (c₁ c₂ : Char) (rest : List Char)
    (h : ¬(c₁ = '\n' ∧ c₂ = '\n')) :
    splitEvents (c₁ :: c₂ :: rest) =
      (c₁ :: (splitEvents (c₂ :: rest)).headI) :: (splitEvents (c₂ :: rest)).tail := by
  simp [splitEvents, h]

/-- A string whose split is a single part splits to itself (it contains no
separator). -/
theorem splitEvents_singleton (s t : List Char) (h : splitEvents s = [t]) :
    t = s := by
  induction s using splitEvents.induct generalizing t with
  | case1 => simp [splitEvents] at h; simp [h]
  | case2 c => simp [splitEvents] at h; simp [h]
  | case3 c₁ c₂ rest hc ih =>
    obtain ⟨hc1, hc2⟩ := hc; subst hc1; subst hc2
    rw [splitEvents_cons_cons_sep] at h
    simp at h
    exact absurd h.2 (splitEvents_ne_nil rest)
  | case4 c₁ c₂ rest hc ih =>
    cases hP : splitEvents (c₂ :: rest) with
    | nil => exact absurd hP (splitEvents_ne_nil _)
    | cons p ps =>
      rw [splitEvents_cons_cons_nosep _ _ _ hc, hP] at h
      simp at h
      obtain ⟨h1, h2⟩ := h
      subst h2
      have hp : p = c₂ :: rest := ih p hP
      rw [← h1, hp]

/-- Splitting is compatible with appending more input: the completed parts of
`x` are final, and only its last (incomplete) part interacts with `y`. This
is the invariant that makes `sendChat`'s buffering chunk-boundary
independent. -/
theorem splitEvents_append (x y : List Char) :
    splitEvents (x ++ y) =
      (splitEvents x).dropLast ++ splitEvents (lastPart (splitEvents x) ++ y) := by
  induction x using splitEvents.induct with
  | case1 => simp [splitEvents, lastPart]
  | case2 c => simp [splitEvents, lastPart]
  | case3 c₁ c₂ rest hc ih =>
    obtain ⟨hc1, hc2⟩ := hc; subst hc1; subst hc2
    have hne := splitEvents_ne_nil rest
    rw [List.cons_append, List.cons_append, splitEvents_cons_cons_sep,
      splitEvents_cons_cons_sep, List.dropLast_cons_of_ne_nil hne,
      lastPart_cons_of_ne_nil _ _ hne, ih, List.cons_append]
  | case4 c₁ c₂ rest hc ih =>
    cases hP : splitEvents (c₂ :: rest) with
    | nil => exact absurd hP (splitEvents_ne_nil _)
    | cons p ps =>
      have hxy : (c₁ :: c₂ :: rest) ++ y = c₁ :: c₂ :: (rest ++ y) := rfl
      rw [hxy, splitEvents_cons_cons_nosep _ _ _ hc,
        splitEvents_cons_cons_nosep _ _ _ hc, hP]
      simp only [List.headI_cons, List.tail_cons]
      cases hps : ps with
      | nil =>
        subst hps
        have hp : p = c₂ :: rest := splitEvents_singleton _ _ hP
        subst hp
        simp only [List.dropLast_single, lastPart, List.nil_append, List.cons_append]
        rw [splitEvents_cons_cons_nosep _ _ _ hc]
      | cons q qs =>
        subst hps
        have hqs : (q :: qs : List (List Char)) ≠ [] := by simp
        rw [List.dropLast_cons_of_ne_nil hqs, lastPart_cons_of_ne_nil _ _ hqs]
        have hry : c₂ :: (rest ++ y) = (c₂ :: rest) ++ y := rfl
        rw [hry, ih, hP, List.dropLast_cons_of_ne_nil hqs,
          lastPart_cons_of_ne_nil _ _ hqs]
        simp

/-- The last part of a split contains no separator: splitting it again is the
identity. This is why the carry buffer never hides a completed event. -/
theorem splitEvents_last_stable (s : List Char) :
    splitEvents (lastPart (splitEvents s)) = [lastPart (splitEvents s)] := by
  induction s using splitEvents.induct with
  | case1 => simp [splitEvents, lastPart]
  | case2 c => simp [splitEvents, lastPart]
  | case3 c₁ c₂ rest hc ih =>
    obtain ⟨hc1, hc2⟩ := hc; subst hc1; subst hc2
    rw [splitEvents_cons_cons_sep, lastPart_cons_of_ne_nil _ _ (splitEvents_ne_nil rest)]
    exact ih
  | case4 c₁ c₂ rest hc ih =>
    cases hP : splitEvents (c₂ :: rest) with
    | nil => exact absurd hP (splitEvents_ne_nil _)
    | cons p ps =>
      rw [splitEvents_cons_cons_nosep _ _ _ hc, hP]
      rw [hP] at ih
      simp only [List.headI_cons, List.tail_cons]
      cases hps : ps with
      | nil =>
        subst hps
        have hp : p = c₂ :: rest := splitEvents_singleton _ _ hP
        simp only [lastPart]
        subst hp
        rw [splitEvents_cons_cons_nosep _ _ _ hc, hP]
        simp
      | cons q qs =>
        subst hps
        rw [lastPart_cons_of_ne_nil _ _ (by simp)]
        rw [lastPart_cons_of_ne_nil _ _ (by simp)] at ih
        exact ih

/-- Generalised statement of the `sendChat` loop invariant: starting from a
separator-free carry buffer, the delivered payloads are those of the
completed events of buffer-plus-everything-read. -/
theorem runSSE_eq_of_stable (chunks : List (List Char)) (b : List Char)
    (hb : splitEvents b = [b]) :
    runSSE b chunks =
      ((splitEvents (b ++ chunks.flatten)).dropLast).filterMap extractEvent := by
  induction chunks generalizing b with
  | nil =>
    rw [List.flatten_nil, List.append_nil, hb]
    simp [runSSE]
  | cons c cs ih =>
    have hflat : b ++ (c :: cs).flatten = (b ++ c) ++ cs.flatten := by
      simp [List.flatten_cons]
    rw [hflat, splitEvents_append (b ++ c) cs.flatten,
      List.dropLast_append_of_ne_nil _ (splitEvents_ne_nil _),
      List.filterMap_append]
    show (splitEvents (b ++ c)).dropLast.filterMap extractEvent ++
        runSSE (lastPart (splitEvents (b ++ c))) cs = _
    rw [ih _ (splitEvents_last_stable (b ++ c))]

/-- C8: `sendChat`'s stream parser is a faithful SSE reader — for every
response body and every way of splitting it into read chunks, the payloads
handed to `onToken` are exactly those extracted from the blank-line-terminated
events of the concatenated body, in stream order, independent of the chunk
boundaries; bytes after the final blank line (the unterminated last event)
are never delivered. -/
theorem sendChat_sse_spec (chunks : List (List Char)) :
    runSSE [] chunks =
      ((splitEvents chunks.flatten).dropLast).filterMap extractEvent := by
  have h := runSSE_eq_of_stable chunks [] (by simp [splitEvents])
  simpa using h

/-- C2: once `streamJob` delivers a snapshot with status "finished" or
"failed" the EventSource is closed and nothing further is delivered (no
snapshot ever follows a terminal one in the delivered sequence); and a
subscriber attaching after completion, whose event stream is the
replay-last-on-subscribe sequence, receives exactly that one terminal
snapshot before the stream ends. -/
theorem streamJob_terminal_spec (events : List (Option Json)) (l1 l2 : List Json)
    (j : Json) (h : runStreamJob events = l1 ++ j :: l2)
    (hterm : isTerminalSnap j = true) :
    l2 = [] ∧ runStreamJob (replayLastEvents j) = [j] := by
  constructor
  · induction events generalizing l1 with
    | nil =>
      rw [show runStreamJob [] = [] from rfl] at h
      exact absurd h.symm (by simp)
    | cons e es ih =>
      cases e with
      | none =>
        rw [show runStreamJob (none :: es) = runStreamJob es from rfl] at h
        exact ih l1 h
      | some d =>
        rw [show runStreamJob (some d :: es) =
            d :: (if isTerminalSnap d then [] else runStreamJob es) from rfl] at h
        cases l1 with
        | nil =>
          rw [List.nil_append] at h
          obtain ⟨h1, h2⟩ := List.cons.injEq .. ▸ h
          subst h1
          rw [if_pos hterm] at h2
          exact h2.symm
        | cons a l1x =>
          rw [List.cons_append] at h
          obtain ⟨h1, h2⟩ := List.cons.injEq .. ▸ h
          by_cases hd : isTerminalSnap d = true
          · rw [if_pos hd] at h2
            exact absurd h2.symm (by simp)
          · rw [if_neg hd] at h2
            exact ih l1x h2
  · show runStreamJob [some j] = [j]
    rw [show runStreamJob [some j] =
        j :: (if isTerminalSnap j then [] else runStreamJob []) from rfl,
      if_pos hterm]

/-- Witness for C2: a stream delivering a running then a finished snapshot
stops at the finished one, and a late subscriber's replayed stream delivers
exactly the terminal snapshot. -/
theorem streamJob_terminal_witness :
    ([] : List Json) = [] ∧
      runStreamJob (replayLastEvents (.obj [("status", .str "finished")])) =
        [.obj [("status", .str "finished")]] :=
  streamJob_terminal_spec
    [some (.obj [("status", .str "running")]),
      some (.obj [("status", .str "finished")])]
    [.obj [("status", .str "running")]] []
    (.obj [("status", .str "finished")]) rfl rfl

/-- C3: `getJob` resolves with the parsed response body exactly when the
response is ok, and throws exactly when it is not ok, with the thrown message
carrying the server's `detail` when a non-empty one is present; in
particular, polling an unknown or expired job id (a NotFound response)
throws rather than returning a value. -/
theorem getJob_spec (r : Response) (j : Json) (d : String) :
    ((r.ok = true ∧ r.body = some j) → getJob r = .ok j)
    ∧ (r.ok = false → (getJob r).isOk = false)
    ∧ ((r.ok = false ∧ jsonLookup (jsonOrEmpty r) "detail" = some (.str d) ∧ d ≠ "") →
        getJob r = .error d)
    ∧ getJob unknownJobResponse = .error "Job not found" := by
  refine ⟨?_, ?_, ?_, by
    simp [getJob, unknownJobResponse, errDetail, jsonOrEmpty, jsonLookup,
      lookupField, orFallback, jsTruthy, jsToString]⟩
  · rintro ⟨h1, h2⟩
    simp [getJob, h1, h2]
  · intro h1
    simp [getJob, h1, Except.isOk, Except.toBool]
  · rintro ⟨h1, h2, h3⟩
    simp [getJob, h1, errDetail, h2, orFallback, jsTruthy, jsToString, h3]

/-- Witness for C3: an ok response returns its body; a rejected response
with a detail message throws that message. -/
theorem getJob_witness :
    getJob ⟨true, some (.str "snap")⟩ = .ok (.str "snap")
    ∧ getJob ⟨false, some (.obj [("detail", .str "boom")])⟩ = .error "boom" :=
  ⟨(getJob_spec ⟨true, some (.str "snap")⟩ (.str "snap") "x").1 ⟨rfl, rfl⟩,
    (getJob_spec ⟨false, some (.obj [("detail", .str "boom")])⟩ .null "boom").2.2.1
      ⟨rfl, rfl, by decide⟩⟩

/-- C6: `startKBJob` and `startEmbeddingJob` report start-request rejections
synchronously — they throw exactly when the response is not ok, carrying the
server's `detail` message when a non-empty one is present, and resolve with
the job body only when the request is accepted. -/
theorem startJob_spec (r : Response) (j : Json) (d : String) :
    ((r.ok = true ∧ r.body = some j) →
      startKBJob r = .ok j ∧ startEmbeddingJob r = .ok j)
    ∧ (r.ok = false →
      (startKBJob r).isOk = false ∧ (startEmbeddingJob r).isOk = false)
    ∧ ((r.ok = false ∧ jsonLookup (jsonOrEmpty r) "detail" = some (.str d) ∧ d ≠ "") →
      startKBJob r = .error d ∧ startEmbeddingJob r = .error d)
    ∧ (∀ v, startKBJob r = .ok v → r.ok = true)
    ∧ (∀ v, startEmbeddingJob r = .ok v → r.ok = true) := by
  refine ⟨?_, ?_, ?_, ?_, ?_⟩
  · rintro ⟨h1, h2⟩
    constructor <;> simp [startKBJob, startEmbeddingJob, h1, h2]
  · intro h1
    constructor <;> simp [startKBJob, startEmbeddingJob, h1, Except.isOk, Except.toBool]
  · rintro ⟨h1, h2, h3⟩
    constructor <;>
      simp [startKBJob, startEmbeddingJob, h1, errDetail, h2, orFallback,
        jsTruthy, jsToString, h3]
  · intro v hv
    cases hok : r.ok with
    | true => rfl
    | false => simp [startKBJob, hok] at hv
  · intro v hv
    cases hok : r.ok with
    | true => rfl
    | false => simp [startEmbeddingJob, hok] at hv

/-- Witness for C6: an accepted start returns the job body; a rejected start
throws the server's detail message. -/
theorem startJob_witness :
    (startKBJob ⟨true, some (.obj [("job_id", .str "j1")])⟩ =
        .ok (.obj [("job_id", .str "j1")])
      ∧ startEmbeddingJob ⟨true, some (.obj [("job_id", .str "j1")])⟩ =
        .ok (.obj [("job_id", .str "j1")]))
    ∧ (startKBJob ⟨false, some (.obj [("detail", .str "Unknown embedding model")])⟩ =
        .error "Unknown embedding model"
      ∧ startEmbeddingJob ⟨false, some (.obj [("detail", .str "Unknown embedding model")])⟩ =
        .error "Unknown embedding model") :=
  ⟨(startJob_spec ⟨true, some (.obj [("job_id", .str "j1")])⟩
      (.obj [("job_id", .str "j1")]) "x").1 ⟨rfl, rfl⟩,
    (startJob_spec ⟨false, some (.obj [("detail", .str "Unknown embedding model")])⟩
      .null "Unknown embedding model").2.2.1 ⟨rfl, rfl, by decide⟩⟩

/-- C5: deleting a knowledge base is idempotent — the client `deleteKB`
resolves successfully whatever the server replied (it never inspects the
response), and the backend delete is a no-op on a non-existent name, with
deleting twice equal to deleting once. -/
theorem deleteKB_idempotent_spec (r : Response) (kbs : List KBMeta) (n : String) :
    deleteKB r = .ok ()
    ∧ kbDelete (kbDelete kbs n) n = kbDelete kbs n
    ∧ ((∀ kb ∈ kbs, kb.name ≠ n) → kbDelete kbs n = kbs) := by
  refine ⟨rfl, ?_, ?_⟩
  · simp [kbDelete, List.filter_filter]
  · intro h
    rw [kbDelete, List.filter_eq_self]
    intro kb hkb
    simpa using h kb hkb

/-- Witness for C5: deleting the absent name "b" leaves the store unchanged
and the client call succeeds even against an error response. -/
theorem deleteKB_idempotent_witness :
    deleteKB ⟨false, none⟩ = .ok ()
    ∧ kbDelete (kbDelete [⟨"a", 12⟩] "b") "b" = kbDelete [⟨"a", 12⟩] "b"
    ∧ kbDelete [⟨"a", 12⟩] "b" = [⟨"a", 12⟩] := by
  have h := deleteKB_idempotent_spec ⟨false, none⟩ [⟨"a", 12⟩] "b"
  exact ⟨h.1, h.2.1, h.2.2 (by decide)⟩

/-- C10: submitting a chat message that is empty or only whitespace after
trimming is a complete no-op — `handleSendMessage` returns before clearing
any input, before touching any provider's status or message list, and before
issuing any `sendChat` request. -/
theorem handleSendMessage_noop_spec (ov : Option Provider) (st : ChatUiState)
    (h : jsTrim (rawInput ov st) = []) :
    handleSendMessage ov st = (st, []) := by
  simp [handleSendMessage, h]

/-- Witness for C10: a whitespace-only composer submission changes nothing
and sends nothing. -/
theorem handleSendMessage_noop_witness :
    handleSendMessage none
        ⟨" \t ".toList, [], [], false, .gemini, [], [], [], []⟩ =
      (⟨" \t ".toList, [], [], false, .gemini, [], [], [], []⟩, []) :=
  handleSendMessage_noop_spec none _ (by decide)

/-- C7: adding a batch containing a vector whose dimension differs from the
knowledge base's embedding dimension is rejected with `IncompatibleModel`
before any write, and the stored chunks and vectors are left unchanged. -/
theorem dimension_guard_spec (ix : VectorIndex) (batch : List (Nat × List ℚ))
    (s : List (String × VectorIndex)) (kb : String) (c : Nat × List ℚ)
    (hc : c ∈ batch) (hd : ¬ c.2.length = ix.dim)
    (hs : lookupIndex s kb = some ix) :
    viAdd ix batch = .error .IncompatibleModel
    ∧ storeAdd s kb batch = (s, some .IncompatibleModel) := by
  have hall : batch.all (fun e => e.2.length == ix.dim) = false := by
    rw [List.all_eq_false]
    exact ⟨c, hc, by simpa using hd⟩
  constructor
  · simp [viAdd, hall]
  · simp [storeAdd, hs, viAdd, hall]

/-- Witness for C7 (the spec's dimension-guard scenario): adding a
768-dimensional vector into KB "x" built with a 384-dimensional model fails
with `IncompatibleModel` and leaves the store unchanged. -/
theorem dimension_guard_witness :
    viAdd ⟨384, []⟩ [(0, List.replicate 768 (0 : ℚ))] = .error .IncompatibleModel
    ∧ storeAdd [("x", ⟨384, []⟩)] "x" [(0, List.replicate 768 (0 : ℚ))] =
      ([("x", ⟨384, []⟩)], some .IncompatibleModel) :=
  dimension_guard_spec ⟨384, []⟩ [(0, List.replicate 768 (0 : ℚ))]
    [("x", ⟨384, []⟩)] "x" (0, List.replicate 768 (0 : ℚ))
    (List.mem_singleton.mpr rfl) (by simp only [List.length_replicate]; decide) (by rfl)

/-- C4: `retrieve` merges per-KB result lists comparing scores directly, with
ties broken by KB name then chunk id (the merged list is sorted by that
order), truncates to the single overall `topK`, and on the spec's example —
KB A scoring [0.9, 0.7] and KB B scoring [0.85, 0.6] — returns exactly
[A-0.9, B-0.85, A-0.7] for `topK = 3`. -/
theorem retrieve_merge_spec (perKB : List (String × List (Nat × ℚ))) (k : Nat) :
    List.Sorted resultBefore (retrieve perKB k)
    ∧ (retrieve perKB k).length ≤ k
    ∧ retrieve [("A", [(0, 9/10), (1, 7/10)]), ("B", [(10, 17/20), (11, 3/5)])] 3 =
        [⟨"A", 0, 9/10⟩, ⟨"B", 10, 17/20⟩, ⟨"A", 1, 7/10⟩] := by
  refine ⟨?_, ?_, ?_⟩
  · exact List.Pairwise.sublist (List.take_sublist _ _)
      (List.sorted_insertionSort resultBefore _)
  · exact List.length_take_le _ _
  · norm_num [retrieve, List.insertionSort, List.orderedInsert, resultBefore]

/-- C9: the WSL path helper converts every prompt input that, after trimming
and quote-stripping, matches drive-colon-separator-remainder into
`/mnt/<lowercased drive>/<remainder with backslash runs collapsed to "/">`
stored as the form's source path; a non-matching non-empty input only sets
the status to "Invalid Windows path." and leaves the source path unchanged. -/
theorem wslHelper_conv_spec (s : List Char) (st : KbFormState) (d : Char)
    (rest : List Char) :
    (s ≠ [] → winMatch (stripQuotes (jsTrim s)) = some (d, rest) →
      wslHelper (some s) st =
        { st with
            sourcePath := wslPathOf d rest
            kbStatus := "WSL path: ".toList ++ wslPathOf d rest })
    ∧ (s ≠ [] → winMatch (stripQuotes (jsTrim s)) = none →
      wslHelper (some s) st =
        { st with kbStatus := "Invalid Windows path.".toList }) := by
  constructor
  · intro hs hm
    simp [wslHelper, hs, hm]
  · intro hs hm
    simp [wslHelper, hs, hm]

/-- Witness for C9: `C:\Users\me\Docs` becomes `/mnt/c/Users/me/Docs`, while
a pathless string only flips the status message. -/
theorem wslHelper_conv_witness :
    wslHelper (some "C:\\Users\\me\\Docs".toList) ⟨[], []⟩ =
      ⟨"/mnt/c/Users/me/Docs".toList, "WSL path: /mnt/c/Users/me/Docs".toList⟩
    ∧ wslHelper (some "notapath".toList) ⟨"p".toList, []⟩ =
      ⟨"p".toList, "Invalid Windows path.".toList⟩ := by
  constructor
  · have h := (wslHelper_conv_spec "C:\\Users\\me\\Docs".toList ⟨[], []⟩
      'C' "Users\\me\\Docs".toList).1 (by decide) (by decide)
    rw [h]
    decide
  · have h := (wslHelper_conv_spec "notapath".toList ⟨"p".toList, []⟩
      'a' []).2 (by decide) (by decide)
    rw [h]

/-- Counterexample to C1: the folder-upload build path does not start a Job —
for a concrete upload response carrying the final counts, `handleCreateKB`'s
upload branch reads `processed_files`/`chunks` straight out of the awaited
response (the call's own result), stores no job id and never calls `getJob`
or `streamJob`; likewise `ingestKB` and `rebuildKB` resolve directly with the
server's final response body. -/
theorem kbBuild_upload_sync_counterexample :
    uploadBranch ⟨true, some (.obj [("processed_files", .num 2), ("chunks", .num 7)])⟩ =
      { kbStatus := "Processed 2 files, 7 chunks"
        kbJobId := none
        polled := []
        streamed := [] }
    ∧ ingestKB ⟨true, some (.obj [("processed_files", .num 1), ("chunks", .num 3)])⟩ =
        .ok (.obj [("processed_files", .num 1), ("chunks", .num 3)])
    ∧ rebuildKB ⟨true, some (.obj [("processed_files", .num 1), ("chunks", .num 3)])⟩ =
        .ok (.obj [("processed_files", .num 1), ("chunks", .num 3)]) := by
  refine ⟨?_, rfl, rfl⟩
  decide

/-- C1 as amended: only the source-path build branch of `handleCreateKB`
runs inside a Job — on an accepted start it stores the returned job id,
polls it with `getJob` and (unless the first snapshot is already terminal)
attaches `streamJob` to it — while the folder-upload branch, the add-docs
path and the rebuild path are synchronous calls that resolve with the final
server result and never interact with a job, and `deleteKB` is synchronous. -/
theorem kbBuild_job_amended (rStart rSnap rU rI rOther : Response) (job j : Json) :
    (startKBJob rStart = .ok job →
      (pathBranch rStart rSnap).kbJobId =
          some (jsDisplay (jsonLookup job "job_id"))
        ∧ (pathBranch rStart rSnap).polled =
          [jsDisplay (jsonLookup job "job_id")])
    ∧ (uploadBranch rU).kbJobId = none
    ∧ (uploadBranch rU).polled = []
    ∧ (uploadBranch rU).streamed = []
    ∧ (ingestKB rI = .ok j ↔ rI.body = some j)
    ∧ (rebuildKB rI = .ok j ↔ rI.body = some j)
    ∧ (addDocsFlow rOther).polled = []
    ∧ (addDocsFlow rOther).streamed = []
    ∧ (rebuildFlow rOther).polled = []
    ∧ (rebuildFlow rOther).streamed = []
    ∧ deleteKB rOther = .ok () := by
  refine ⟨?_, ?_, ?_, ?_, ?_, ?_, rfl, rfl, rfl, rfl, rfl⟩
  · intro h
    unfold pathBranch
    rw [h]
    cases hg : getJob rSnap with
    | error m => exact ⟨rfl, rfl⟩
    | ok snap =>
      by_cases h1 : statusIs snap "failed" = true
      · simp [h1]
      · by_cases h2 : statusIs snap "finished" = true
        · simp [h1, h2]
        · simp [h1, h2]
  · cases hu : createKBUpload rU with
    | error m => simp [uploadBranch, hu]
    | ok result => simp [uploadBranch, hu]
  · cases hu : createKBUpload rU with
    | error m => simp [uploadBranch, hu]
    | ok result => simp [uploadBranch, hu]
  · cases hu : createKBUpload rU with
    | error m => simp [uploadBranch, hu]
    | ok result => simp [uploadBranch, hu]
  · cases hb : rI.body with
    | none => simp [ingestKB, hb]
    | some v =>
      simp only [ingestKB, hb]
      constructor
      · rintro h
        obtain rfl := Except.ok.injEq .. ▸ h
        rfl
      · rintro h
        obtain rfl := Option.some.injEq .. ▸ h
        rfl
  · cases hb : rI.body with
    | none => simp [rebuildKB, hb]
    | some v =>
      simp only [rebuildKB, hb]
      constructor
      · rintro h
        obtain rfl := Except.ok.injEq .. ▸ h
        rfl
      · rintro h
        obtain rfl := Option.some.injEq .. ▸ h
        rfl

/-- Witness for C1 amended: an accepted source-path start with job id "j1"
stores and polls exactly "j1". -/
theorem kbBuild_job_amended_witness :
    (pathBranch ⟨true, some (.obj [("job_id", .str "j1")])⟩ ⟨false, none⟩).kbJobId =
        some "j1"
      ∧ (pathBranch ⟨true, some (.obj [("job_id", .str "j1")])⟩ ⟨false, none⟩).polled =
        ["j1"] := by
  have h := (kbBuild_job_amended ⟨true, some (.obj [("job_id", .str "j1")])⟩
    ⟨false, none⟩ ⟨true, none⟩ ⟨true, none⟩ ⟨true, none⟩
    (.obj [("job_id", .str "j1")]) .null).1 rfl
  simpa [jsDisplay, jsonLookup, lookupField, jsToString] using h
